import Mathlib

/-!
Verification of the otel-logger log reassembly and normalization pipeline.

The development shallowly embeds the core of the Go sources:
the JSON field-mapped extractor (`ExtractJSON`, `ParseLogEntry` in main.go),
the multiline reassembler (`multilineLogIterator` in main.go), and the
batch accumulator (`LogBatcher` in the batcher source file).

External effects are modelled as explicit parameters:
the wall clock (`time.Now()`) is a `Nat` argument, the timestamp parser
(`parseTimestamp`, built on `time.Parse`) and the epoch conversion
(`time.Unix`) are oracle functions, the regular-expression engine's
`FindStringSubmatch` result is an `Option ReMatch` argument, and
`json.Unmarshal`'s result is an `Option JObj` argument.  Time is a `Nat`
whose value `0` stands for Go's zero `time.Time` (`IsZero`).
-/

namespace OtelLogger

/-- A JSON value as produced by `json.Unmarshal` into `map[string]any`:
strings, numbers (Go `float64`; modelled as `Int`, the fractional part is
irrelevant to the embedded code paths), booleans and null. -/
inductive JValue where
  | str (s : String)
  | num (n : Int)
  | bool (b : Bool)
  | null
deriving DecidableEq, Repr

/-- A decoded JSON object (`map[string]any`), as an association list. -/
abbrev JObj := List (String × JValue)

/-- Lookup of a key in a decoded object (`jsonData[field]`); `none` models a
missing key (Go's `nil` with failed type assertions). -/
def jlookup : JObj → String → Option JValue
  | [], _ => none
  | (k, v) :: rest, key => if k = key then some v else jlookup rest key

/-- Removal of a key from a decoded object (`delete(jsonData, field)`). -/
def jerase : JObj → String → JObj
  | [], _ => []
  | (k, v) :: rest, key => if k = key then jerase rest key else (k, v) :: jerase rest key

/-- The result of a successful `prefixRegex.FindStringSubmatch(line)` call:
the whole match followed by the contents of each capturing group (a group
that did not participate reports `""`, as in Go). `none` models the nil
slice returned when the expression does not match. -/
structure ReMatch where
  whole : String
  groups : List String
deriving DecidableEq, Repr

/-- Embedding of `JSONExtractor.ExtractJSON` (main.go lines 156-171).
`mr` is the `FindStringSubmatch` result for `line`: Go's `matches` slice is
`mr.whole :: mr.groups`, so `len(matches) == 0` is the `none` case and
`matches[len(matches)-1]` is the last element of that list. -/
def ExtractJSON (mr : Option ReMatch) (line : String) : String :=
  match mr with
  | none => line
  | some m =>
    let ms := m.whole :: m.groups
    if 1 < ms.length then
      let jsonPart := ms.getLastD ""
      if jsonPart ≠ "" then jsonPart else line
    else line

/-- Candidate-payload selection as worded by the specification: if the
expression matches and has capturing groups, the last group's contents are
used when non-empty; otherwise (empty last group, no groups, or no match)
the whole original entry is used unchanged. -/
def specCandidatePayload (mr : Option ReMatch) (line : String) : String :=
  match mr with
  | none => line
  | some m =>
    match m.groups.getLast? with
    | none => line
    | some g => if g = "" then line else g

/-- Embedding of `FieldMappings` (main.go lines 124-129). -/
structure FieldMappings where
  TimestampFields : List String
  LevelFields : List String
  MessageFields : List String
deriving DecidableEq, Repr

/-- Embedding of `getDefaultFieldMappings` (main.go lines 357-363). -/
def getDefaultFieldMappings : FieldMappings :=
  { TimestampFields := ["timestamp", "ts", "time", "@timestamp"]
    LevelFields := ["level", "lvl", "severity", "priority"]
    MessageFields := ["message", "msg", "text", "content"] }

/-- Embedding of `LogEntry` (main.go lines 114-122); `Timestamp` is a `Nat`
with `0` standing for the zero `time.Time`. -/
structure LogEntry where
  Timestamp : Nat
  Level : String
  Message : String
  Fields : JObj
  Raw : String
deriving DecidableEq, Repr

/-- Embedding of the timestamp loop of `ParseLogEntry` (main.go lines
192-208).  `pt` models `parseTimestamp` (`none` when every format fails),
`ux` models `time.Unix(int64(n), 0)`.  Per key, a string value is tried
with `pt` and the key is deleted and the loop breaks whether or not the
parse succeeded; a numeric value is converted with `ux`, deleted, and the
loop breaks; any other value (or an absent key) moves on to the next key.
Returns `(timestampExtracted, entry.Timestamp, jsonData)` at loop exit,
the `Timestamp` component still being its zero value `0` when unset. -/
def extractTimestampLoop (pt : String → Option Nat) (ux : Int → Nat) :
    List String → JObj → Bool × Nat × JObj
  | [], obj => (false, 0, obj)
  | k :: ks, obj =>
    match jlookup obj k with
    | some (JValue.str s) =>
      match pt s with
      | some t => (true, t, jerase obj k)
      | none => (false, 0, jerase obj k)
    | some (JValue.num n) => (true, ux n, jerase obj k)
    | _ => extractTimestampLoop pt ux ks obj

/-- Embedding of the level loop of `ParseLogEntry` (main.go lines 214-223):
the first key with a string value is consumed and the loop breaks; other
values and absent keys move on.  Returns `none` when no key matched. -/
def extractLevelLoop : List String → JObj → Option String × JObj
  | [], obj => (none, obj)
  | k :: ks, obj =>
    match jlookup obj k with
    | some (JValue.str s) => (some s, jerase obj k)
    | _ => extractLevelLoop ks obj

/-- Embedding of the message loop of `ParseLogEntry` (main.go lines
228-237), identical in shape to the level loop. -/
def extractMessageLoop : List String → JObj → Option String × JObj
  | [], obj => (none, obj)
  | k :: ks, obj =>
    match jlookup obj k with
    | some (JValue.str s) => (some s, jerase obj k)
    | _ => extractMessageLoop ks obj

/-- Embedding of `JSONExtractor.ParseLogEntry` (main.go lines 173-246).
`now` is the value `time.Now()` would return during this call; `decoded`
is the result of `json.Unmarshal` on the extracted payload (`none` on
unmarshal failure).  The second component is the function's returned
`error`, which is `nil` (`none`) on every path in the source. -/
def ParseLogEntry (pt : String → Option Nat) (ux : Int → Nat)
    (fm : FieldMappings) (now : Nat) (line : String) (decoded : Option JObj) :
    LogEntry × Option String :=
  match decoded with
  | none =>
    ({ Timestamp := now, Level := "info", Message := line.trim,
       Fields := [], Raw := line }, none)
  | some jsonData =>
    let tsr := extractTimestampLoop pt ux fm.TimestampFields jsonData
    let ts := if tsr.1 = false ∨ tsr.2.1 = 0 then now else tsr.2.1
    let lvr := extractLevelLoop fm.LevelFields tsr.2.2
    let msr := extractMessageLoop fm.MessageFields lvr.2
    ({ Timestamp := ts, Level := lvr.1.getD "info",
       Message := msr.1.getD "Log entry", Fields := msr.2, Raw := line }, none)

/-- Claim C7: for every entry string and configured prefix regular
expression, if the expression matches and has capturing groups, the last
group's contents are used as the candidate structured payload when
non-empty; if the last group is empty, or there are no capturing groups,
or the expression does not match at all, the whole original entry is used
unchanged.  Stated as: the source's `ExtractJSON` coincides with the
specification's candidate-payload selection on every match result. -/
theorem C7_extract_json_spec (mr : Option ReMatch) (line : String) :
    ExtractJSON mr line = specCandidatePayload mr line := by
  cases mr with
  | none => rfl
  | some m =>
    cases hg : m.groups with
    | nil => simp [ExtractJSON, specCandidatePayload, hg]
    | cons g gs =>
      have hne : g :: gs ≠ ([] : List String) := by simp
      have hsome := List.getLast?_eq_getLast (g :: gs) hne
      have hlen : 1 < (m.whole :: g :: gs).length := by simp
      simp only [ExtractJSON, specCandidatePayload, hg, if_pos hlen,
        List.getLastD_eq_getLast?, List.getLast?_cons_cons, hsome, Option.getD_some]
      by_cases he : (g :: gs).getLast hne = ""
      · simp [he]
      · simp [he]

/-- Claim C5: the extractor's parse never returns an error, and when the
candidate payload fails to decode as a JSON object the record's message is
the trimmed original entry, its level is "info", its timestamp is the
current time, its attributes are empty, and its raw text is the original
entry unchanged. -/
theorem C5_parse_never_errors (pt : String → Option Nat) (ux : Int → Nat)
    (fm : FieldMappings) (now : Nat) (line : String) :
    ParseLogEntry pt ux fm now line none
      = ({ Timestamp := now, Level := "info", Message := line.trim,
           Fields := [], Raw := line }, none)
    ∧ ∀ decoded : Option JObj, (ParseLogEntry pt ux fm now line decoded).2 = none := by
  refine ⟨rfl, ?_⟩
  intro decoded
  cases decoded <;> rfl

/-- Models `parseTimestamp` (main.go lines 248-266) on the concrete strings
appearing in this file: "2024-01-15T10:30:45Z" is RFC3339 and parses to
epoch second 1705314645; "0001-01-01T00:00:00Z" is RFC3339 and parses to
Go's zero `time.Time` (modelled as `0`); no listed format accepts any
other string used here. -/
def samplePt : String → Option Nat := fun s =>
  if s = "2024-01-15T10:30:45Z" then some 1705314645
  else if s = "0001-01-01T00:00:00Z" then some 0
  else none

/-- Models `time.Unix(int64(n), 0)` on non-negative epoch seconds; only
the facts that it is a fixed function of the numeric value and nonzero on
the inputs used here matter to the embedded logic. -/
def sampleUx : Int → Nat := Int.toNat

/-- A decoded object in which the first configured timestamp key
("timestamp") is present but bool-valued, while the later key "ts" holds a
parseable RFC3339 string. -/
def objC1 : JObj := [("timestamp", JValue.bool true), ("ts", JValue.str "2024-01-15T10:30:45Z")]

/-- A value of `Option JValue` is a candidate for the timestamp loop
exactly when it is a present string or number (the two type assertions in
main.go lines 195 and 202). -/
def isTsCandidate : Option JValue → Bool
  | some (JValue.str _) => true
  | some (JValue.num _) => true
  | _ => false

/-- A value of `Option JValue` is a candidate for the level and message
loops exactly when it is a present string (the type assertions in main.go
lines 217 and 231). -/
def isStrCandidate : Option JValue → Bool
  | some (JValue.str _) => true
  | _ => false

/-- Keys whose values are not timestamp candidates are skipped by the
timestamp loop. -/
theorem extractTimestampLoop_skip (pt : String → Option Nat) (ux : Int → Nat)
    (obj : JObj) (ks1 ks2 : List String)
    (h : ∀ k ∈ ks1, isTsCandidate (jlookup obj k) = false) :
    extractTimestampLoop pt ux (ks1 ++ ks2) obj = extractTimestampLoop pt ux ks2 obj := by
  induction ks1 with
  | nil => rfl
  | cons k ks ih =>
    have hk : isTsCandidate (jlookup obj k) = false := h k (by simp)
    have hrest : ∀ k' ∈ ks, isTsCandidate (jlookup obj k') = false :=
      fun k' hm => h k' (by simp [hm])
    cases hv : jlookup obj k with
    | none => simpa [extractTimestampLoop, hv] using ih hrest
    | some v =>
      cases v with
      | str s => simp [isTsCandidate, hv] at hk
      | num n => simp [isTsCandidate, hv] at hk
      | bool b => simpa [extractTimestampLoop, hv] using ih hrest
      | null => simpa [extractTimestampLoop, hv] using ih hrest

/-- Keys whose values are not present strings are skipped by the level
loop. -/
theorem extractLevelLoop_skip (obj : JObj) (ks1 ks2 : List String)
    (h : ∀ k ∈ ks1, isStrCandidate (jlookup obj k) = false) :
    extractLevelLoop (ks1 ++ ks2) obj = extractLevelLoop ks2 obj := by
  induction ks1 with
  | nil => rfl
  | cons k ks ih =>
    have hk : isStrCandidate (jlookup obj k) = false := h k (by simp)
    have hrest : ∀ k' ∈ ks, isStrCandidate (jlookup obj k') = false :=
      fun k' hm => h k' (by simp [hm])
    cases hv : jlookup obj k with
    | none => simpa [extractLevelLoop, hv] using ih hrest
    | some v =>
      cases v with
      | str s => simp [isStrCandidate, hv] at hk
      | num n => simpa [extractLevelLoop, hv] using ih hrest
      | bool b => simpa [extractLevelLoop, hv] using ih hrest
      | null => simpa [extractLevelLoop, hv] using ih hrest

/-- Keys whose values are not present strings are skipped by the message
loop. -/
theorem extractMessageLoop_skip (obj : JObj) (ks1 ks2 : List String)
    (h : ∀ k ∈ ks1, isStrCandidate (jlookup obj k) = false) :
    extractMessageLoop (ks1 ++ ks2) obj = extractMessageLoop ks2 obj := by
  induction ks1 with
  | nil => rfl
  | cons k ks ih =>
    have hk : isStrCandidate (jlookup obj k) = false := h k (by simp)
    have hrest : ∀ k' ∈ ks, isStrCandidate (jlookup obj k') = false :=
      fun k' hm => h k' (by simp [hm])
    cases hv : jlookup obj k with
    | none => simpa [extractMessageLoop, hv] using ih hrest
    | some v =>
      cases v with
      | str s => simp [isStrCandidate, hv] at hk
      | num n => simpa [extractMessageLoop, hv] using ih hrest
      | bool b => simpa [extractMessageLoop, hv] using ih hrest
      | null => simpa [extractMessageLoop, hv] using ih hrest

/-- Claim C1 is false as stated: priority does depend on the value's type.
In `objC1` the first configured timestamp key, "timestamp", is present in
the parsed object, yet the loop consumes the later key "ts": the resolved
timestamp is the value parsed from "ts", the key "ts" is removed, and
"timestamp" survives untouched into the record's remaining fields. -/
theorem C1_counterexample :
    extractTimestampLoop samplePt sampleUx getDefaultFieldMappings.TimestampFields objC1
      = (true, 1705314645, [("timestamp", JValue.bool true)])
    ∧ (ParseLogEntry samplePt sampleUx getDefaultFieldMappings 999 "L" (some objC1)).1.Timestamp
        = 1705314645
    ∧ jlookup (ParseLogEntry samplePt sampleUx getDefaultFieldMappings 999 "L" (some objC1)).1.Fields
        "timestamp" = some (JValue.bool true)
    ∧ jlookup (ParseLogEntry samplePt sampleUx getDefaultFieldMappings 999 "L" (some objC1)).1.Fields
        "ts" = none := by
  decide

/-- Claim C1 (amended): within each of the three key lists, the first key
whose value in the parsed object has the accepted type for that field (a
JSON string or number for timestampKeys, a JSON string for levelKeys and
messageKeys) is the one consumed; keys present with a value of any other
type are skipped exactly as absent keys are, so priority is positional
only among keys carrying an accepted value type. -/
theorem C1_amended (pt : String → Option Nat) (ux : Int → Nat) (obj : JObj)
    (ts1 ts2 lv1 lv2 ms1 ms2 : List String)
    (hts : ∀ k ∈ ts1, isTsCandidate (jlookup obj k) = false)
    (hlv : ∀ k ∈ lv1, isStrCandidate (jlookup obj k) = false)
    (hms : ∀ k ∈ ms1, isStrCandidate (jlookup obj k) = false) :
    extractTimestampLoop pt ux (ts1 ++ ts2) obj = extractTimestampLoop pt ux ts2 obj
    ∧ extractLevelLoop (lv1 ++ lv2) obj = extractLevelLoop lv2 obj
    ∧ extractMessageLoop (ms1 ++ ms2) obj = extractMessageLoop ms2 obj :=
  ⟨extractTimestampLoop_skip pt ux obj ts1 ts2 hts,
   extractLevelLoop_skip obj lv1 lv2 hlv,
   extractMessageLoop_skip obj ms1 ms2 hms⟩

/-- Concrete instance of the amended claim C1: on `objC1` the bool-valued
key "timestamp" is skipped by the timestamp loop, and absent keys are
skipped by the level and message loops. -/
theorem C1_amended_witness :
    extractTimestampLoop samplePt sampleUx (["timestamp"] ++ ["ts"]) objC1
      = extractTimestampLoop samplePt sampleUx ["ts"] objC1
    ∧ extractLevelLoop (["level"] ++ []) objC1 = extractLevelLoop [] objC1
    ∧ extractMessageLoop (["message"] ++ []) objC1 = extractMessageLoop [] objC1 :=
  C1_amended samplePt sampleUx objC1 ["timestamp"] ["ts"] ["level"] [] ["message"] []
    (by decide) (by decide) (by decide)

/-- A decoded object whose "ts" key holds the RFC3339 rendering of Go's
zero time. -/
def objC8 : JObj := [("ts", JValue.str "0001-01-01T00:00:00Z")]

/-- Claim C8 is false as stated: on `objC8` the timestamp key "ts" matches
(it is present, string-valued, is consumed, and parses successfully), yet
the parsed instant is Go's zero time, so `ParseLogEntry` still falls back
to the wall clock and two runs at different times yield different
timestamps. -/
theorem C8_counterexample :
    (extractTimestampLoop samplePt sampleUx getDefaultFieldMappings.TimestampFields objC8).1 = true
    ∧ (ParseLogEntry samplePt sampleUx getDefaultFieldMappings 100 "L" (some objC8)).1.Timestamp = 100
    ∧ (ParseLogEntry samplePt sampleUx getDefaultFieldMappings 200 "L" (some objC8)).1.Timestamp = 200 := by
  decide

/-- Claim C8 (amended): two runs of the extractor on the same entry and
mapping agree on every field except possibly the timestamp, and the
timestamps also agree whenever the timestamp loop extracted a value
(`timestampExtracted` true) and that value is not the zero time — i.e.
the wall-clock fallback fires only when no timestamp key matched, when
the matched string failed to parse, or when the extracted instant is the
zero time. -/
theorem C8_amended (pt : String → Option Nat) (ux : Int → Nat) (fm : FieldMappings)
    (line : String) (decoded : Option JObj) (now₁ now₂ : Nat) :
    ((ParseLogEntry pt ux fm now₁ line decoded).1.Level
        = (ParseLogEntry pt ux fm now₂ line decoded).1.Level
      ∧ (ParseLogEntry pt ux fm now₁ line decoded).1.Message
        = (ParseLogEntry pt ux fm now₂ line decoded).1.Message
      ∧ (ParseLogEntry pt ux fm now₁ line decoded).1.Fields
        = (ParseLogEntry pt ux fm now₂ line decoded).1.Fields
      ∧ (ParseLogEntry pt ux fm now₁ line decoded).1.Raw
        = (ParseLogEntry pt ux fm now₂ line decoded).1.Raw)
    ∧ (∀ obj, decoded = some obj →
        (extractTimestampLoop pt ux fm.TimestampFields obj).1 = true →
        (extractTimestampLoop pt ux fm.TimestampFields obj).2.1 ≠ 0 →
        (ParseLogEntry pt ux fm now₁ line decoded).1
          = (ParseLogEntry pt ux fm now₂ line decoded).1) := by
  cases decoded with
  | none =>
    refine ⟨⟨rfl, rfl, rfl, rfl⟩, ?_⟩
    intro obj h
    cases h
  | some obj =>
    refine ⟨⟨rfl, rfl, rfl, rfl⟩, ?_⟩
    intro obj' heq hex hnz
    cases heq
    simp only [ParseLogEntry]
    have hcond : ¬((extractTimestampLoop pt ux fm.TimestampFields obj).1 = false
        ∨ (extractTimestampLoop pt ux fm.TimestampFields obj).2.1 = 0) := by
      rintro (h1 | h2)
      · rw [hex] at h1
        cases h1
      · exact hnz h2
    rw [if_neg hcond, if_neg hcond]

/-- Concrete instance of the amended claim C8: on `objC1` (timestamp
extracted from "ts", nonzero), two runs at different clock values yield
identical records. -/
theorem C8_amended_witness :
    (ParseLogEntry samplePt sampleUx getDefaultFieldMappings 100 "x" (some objC1)).1
      = (ParseLogEntry samplePt sampleUx getDefaultFieldMappings 200 "x" (some objC1)).1 :=
  (C8_amended samplePt sampleUx getDefaultFieldMappings "x" (some objC1) 100 200).2
    objC1 rfl (by decide) (by decide)

/-- A string has length zero exactly when it is empty. -/
theorem str_length_eq_zero (s : String) : s.length = 0 ↔ s = "" := by
  constructor
  · intro h
    cases s with
    | mk data =>
      cases data with
      | nil => rfl
      | cons c cs => simp [String.length] at h
  · intro h
    subst h
    rfl

/-- Appending a newline and a further line keeps a string non-empty. -/
theorem str_append_newline_ne (b line : String) : b ++ "\n" ++ line ≠ "" := by
  intro h
  have hlen : (b ++ "\n" ++ line).length = 0 := (str_length_eq_zero _).mpr h
  rw [String.length_append, String.length_append] at hlen
  have hnl : ("\n" : String).length = 1 := rfl
  omega

/-- Embedding of the `isLogEntryStart` closure inside `multilineLogIterator`
(main.go lines 386-398); `isCont` models `continuationPattern.MatchString`. -/
def isLogEntryStart (isCont : String → Bool) (line : String) : Bool :=
  if line.length = 0 then false
  else if isCont line then false
  else true

/-- Embedding of the scan loop and final yield of `multilineLogIterator`
(main.go lines 400-436).  `b` holds the `currentEntry` builder contents
and `out` the entries yielded so far; the model consumes the whole line
sequence (early termination by the consumer is not exercised by the claims
settled here). -/
def multilineStep (isCont : String → Bool) : List String → String → List String → List String
  | [], b, out => if 0 < b.length then out ++ [b] else out
  | line :: rest, b, out =>
    if line.length = 0 then multilineStep isCont rest b out
    else if isLogEntryStart isCont line then
      if 0 < b.length then multilineStep isCont rest line (out ++ [b])
      else multilineStep isCont rest line out
    else if 0 < b.length then multilineStep isCont rest (b ++ "\n" ++ line) out
    else multilineStep isCont rest b out

/-- Embedding of `multilineLogIterator` (main.go lines 384-437) on the
list of lines the scanner delivers. -/
def multilineLogIterator (isCont : String → Bool) (lines : List String) : List String :=
  multilineStep isCont lines "" []

/-- The single forward pass in the specification's words: an explicit
optional in-progress buffer; empty lines are discarded; a non-empty
non-continuation line first emits the open buffer then starts a new one
from that line; a non-empty continuation line is appended with a
preceding newline only to an open buffer and is dropped otherwise; at end
of input the open buffer, if any, is emitted. -/
def specReassembleStep (isCont : String → Bool) :
    List String → Option String → List String → List String
  | [], buf, out =>
    match buf with
    | some b => out ++ [b]
    | none => out
  | line :: rest, buf, out =>
    if line = "" then specReassembleStep isCont rest buf out
    else if isCont line then
      match buf with
      | some b => specReassembleStep isCont rest (some (b ++ "\n" ++ line)) out
      | none => specReassembleStep isCont rest none out
    else
      match buf with
      | some b => specReassembleStep isCont rest (some line) (out ++ [b])
      | none => specReassembleStep isCont rest (some line) out

/-- The specification's forward pass on a whole stream. -/
def specReassemble (isCont : String → Bool) (lines : List String) : List String :=
  specReassembleStep isCont lines none []

/-- The source's builder-based loop agrees with the specification's
optional-buffer pass, relating an empty builder to an absent buffer. -/
theorem reassembleAgree (isCont : String → Bool) :
    ∀ (lines : List String) (b : String) (out : List String),
      multilineStep isCont lines b out
        = specReassembleStep isCont lines (if b = "" then none else some b) out := by
  intro lines
  induction lines with
  | nil =>
    intro b out
    by_cases hb : b = ""
    · subst hb
      simp [multilineStep, specReassembleStep]
    · have hpos : 0 < b.length :=
        Nat.pos_of_ne_zero (fun h => hb ((str_length_eq_zero b).mp h))
      simp [multilineStep, specReassembleStep, hb, hpos]
  | cons line rest ih =>
    intro b out
    by_cases hline : line = ""
    · subst hline
      simp only [multilineStep, specReassembleStep]
      simp [ih b out]
    · have hlz : ¬ line.length = 0 := fun h => hline ((str_length_eq_zero line).mp h)
      by_cases hc : isCont line = true
      · have hstart : isLogEntryStart isCont line = false := by
          simp [isLogEntryStart, hlz, hc]
        by_cases hb : b = ""
        · subst hb
          simp [multilineStep, specReassembleStep, hline, hlz, hc, hstart, ih]
        · have hpos : 0 < b.length :=
            Nat.pos_of_ne_zero (fun h => hb ((str_length_eq_zero b).mp h))
          have hb2 : b ++ "\n" ++ line ≠ "" := str_append_newline_ne b line
          simp [multilineStep, specReassembleStep, hline, hlz, hc, hstart, hb, hpos,
            hb2, ih]
      · have hcf : isCont line = false := by
          cases hval : isCont line with
          | false => rfl
          | true => exact absurd hval hc
        have hstart : isLogEntryStart isCont line = true := by
          simp [isLogEntryStart, hlz, hcf]
        by_cases hb : b = ""
        · subst hb
          simp [multilineStep, specReassembleStep, hline, hlz, hcf, hstart, ih]
        · have hpos : 0 < b.length :=
            Nat.pos_of_ne_zero (fun h => hb ((str_length_eq_zero b).mp h))
          simp [multilineStep, specReassembleStep, hline, hlz, hcf, hstart, hb, hpos,
            ih]

/-- Claim C2: for every finite input line sequence and continuation
classifier, the embedded `multilineLogIterator` emits exactly the entries
of the specification's single forward pass, including the discard of
empty lines, the silent drop of orphan continuation lines, and the final
emission of the last non-empty buffer. -/
theorem C2_reassembler_refines_spec (isCont : String → Bool) (lines : List String) :
    multilineLogIterator isCont lines = specReassemble isCont lines := by
  simpa [multilineLogIterator, specReassemble] using reassembleAgree isCont lines "" []

/-- A line source as the reassembler sees it: the complete lines the
scanner delivered before stopping, plus whether the stop was caused by a
read failure (`scanner.Err() != nil`) rather than end of input. -/
structure LineSource where
  lines : List String
  fails : Bool
deriving DecidableEq, Repr

/-- Consumption of a line source by `multilineLogIterator` (main.go lines
400-436): `bufio.Scanner.Scan` returns the buffered complete lines and
then reports false both at end of input and at a read failure; the
iterator never calls `scanner.Err()`, and its sequence type
`iter.Seq[string]` carries no failure signal, so the output is a function
of the delivered lines alone. -/
def multilineFromSource (isCont : String → Bool) (src : LineSource) : List String :=
  multilineStep isCont src.lines "" []

/-- Model of the default continuation pattern `^[ \t]` (main.go line 45):
a line matches exactly when its first character is a space or a tab. -/
def defaultIsCont (line : String) : Bool :=
  match line.data with
  | [] => false
  | c :: _ => c = ' ' || c = '\t'

/-- Claim C3 is false as stated: when the line source fails after
delivering an entry-start line and a continuation line, the in-progress
buffer is emitted as a completed entry rather than discarded, and the
output is identical to that of a source that ended normally — no terminal
failure signal reaches the consumer. -/
theorem C3_counterexample :
    multilineFromSource defaultIsCont ⟨["connection lost", " partial detail"], true⟩
      = ["connection lost\n partial detail"]
    ∧ multilineFromSource defaultIsCont ⟨["connection lost", " partial detail"], true⟩
      = multilineFromSource defaultIsCont ⟨["connection lost", " partial detail"], false⟩ := by
  exact ⟨rfl, rfl⟩

/-- After any prefix of lines, a final non-empty non-continuation line
leaves the specification pass with at least one emitted entry. -/
theorem specStep_trailing_start (isCont : String → Bool) (l : String)
    (hl : l ≠ "") (hc : isCont l = false) :
    ∀ (ls : List String) (buf : Option String) (out : List String),
      out.length + 1 ≤ (specReassembleStep isCont (ls ++ [l]) buf out).length := by
  intro ls
  induction ls with
  | nil =>
    intro buf out
    cases buf with
    | none => simp [specReassembleStep, hl, hc]
    | some b => simp [specReassembleStep, hl, hc]
  | cons l0 ls0 ih =>
    intro buf out
    by_cases h0 : l0 = ""
    · subst h0
      simpa [specReassembleStep] using ih buf out
    · by_cases hc0 : isCont l0 = true
      · cases buf with
        | none => simpa [specReassembleStep, h0, hc0] using ih none out
        | some b => simpa [specReassembleStep, h0, hc0] using ih (some (b ++ "\n" ++ l0)) out
      · have hc0f : isCont l0 = false := by
          cases hval : isCont l0 with
          | false => rfl
          | true => exact absurd hval hc0
        cases buf with
        | none => simpa [specReassembleStep, h0, hc0f] using ih (some l0) out
        | some b =>
          have := ih (some l0) (out ++ [b])
          simp only [specReassembleStep, h0, hc0f, if_neg, if_false] at *
          simp [h0, hc0f] at this ⊢
          omega

/-- Claim C3 (amended): a mid-stream line-source failure is invisible to
the reassembler — the iterator's output is exactly the output for the
same delivered lines with a normal end of input, no terminal failure
signal exists in its sequence, and an in-progress buffer at the failure
point is emitted as a final entry (any delivered stream ending in an
entry-start line yields at least one entry), never discarded. -/
theorem C3_amended (isCont : String → Bool) (ls : List String) (f₁ f₂ : Bool) :
    multilineFromSource isCont ⟨ls, f₁⟩ = multilineFromSource isCont ⟨ls, f₂⟩
    ∧ (∀ l, l ≠ "" → isCont l = false →
        1 ≤ (multilineFromSource isCont ⟨ls ++ [l], f₁⟩).length) := by
  constructor
  · rfl
  · intro l hl hc
    have hagree := reassembleAgree isCont (ls ++ [l]) "" []
    have hlen := specStep_trailing_start isCont l hl hc ls none []
    simp only [multilineFromSource]
    rw [hagree]
    simpa using hlen

/-- Concrete instance of the amended claim C3: a failing source that
delivered the single entry-start line "a" still yields one entry. -/
theorem C3_amended_witness :
    1 ≤ (multilineFromSource defaultIsCont ⟨["a"] ++ ["b"], true⟩).length :=
  (C3_amended defaultIsCont ["a"] true false).2 "b" (by decide) (by decide)

/-- Embedding of `LogBatcher` (batcher source, lines 57-65).  `maxSize`
and `entries` are as in the struct; `hasTicker` records whether
`flushInterval > 0` created a ticker and `doneClosed` whether the `done`
channel has been closed; `flushes` is trace instrumentation recording the
argument of every `flushFunc` invocation, oldest first (the callback
itself is passed to each operation as the oracle `fErr`, giving the error
it returns for a batch). -/
structure LogBatcher (α : Type) where
  entries : List α
  maxSize : Nat
  hasTicker : Bool
  doneClosed : Bool
  flushes : List (List α)
deriving DecidableEq, Repr

/-- Embedding of `NewLogBatcher` (batcher source, lines 190-205):
`hasTicker` is `flushInterval > 0`. -/
def NewLogBatcher (α : Type) (maxSize : Nat) (hasTicker : Bool) : LogBatcher α :=
  { entries := [], maxSize := maxSize, hasTicker := hasTicker,
    doneClosed := false, flushes := [] }

/-- Embedding of the private `flush` (batcher source, lines 219-229): a
no-op on an empty buffer; otherwise the buffer contents are taken, the
buffer is reset to empty, and the flush callback is invoked with the
taken contents, its error being returned. -/
def LogBatcher.flush {α : Type} (fErr : List α → Option String) (b : LogBatcher α) :
    LogBatcher α × Option String :=
  if b.entries.length = 0 then (b, none)
  else ({ b with entries := [], flushes := b.flushes ++ [b.entries] }, fErr b.entries)

/-- Embedding of `LogBatcher.Add` (batcher source, lines 207-213): append,
then flush synchronously when the length reaches `maxSize`. -/
def LogBatcher.Add {α : Type} (fErr : List α → Option String) (b : LogBatcher α)
    (e : α) : LogBatcher α × Option String :=
  let b2 := { b with entries := b.entries ++ [e] }
  if b.maxSize ≤ b2.entries.length then LogBatcher.flush fErr b2 else (b2, none)

/-- Embedding of the exported `Flush` (batcher source, lines 215-217). -/
def LogBatcher.Flush {α : Type} (fErr : List α → Option String) (b : LogBatcher α) :
    LogBatcher α × Option String :=
  LogBatcher.flush fErr b

/-- Embedding of `LogBatcher.Close` (batcher source, lines 244-250): when
a ticker exists it is stopped and the `done` channel is closed — a panic
(modelled as `Except.error`) if that channel was already closed — then a
final `flush` runs and its error is returned. -/
def LogBatcher.Close {α : Type} (fErr : List α → Option String) (b : LogBatcher α) :
    Except String (LogBatcher α × Option String) :=
  if b.hasTicker then
    if b.doneClosed then Except.error "close of closed channel"
    else Except.ok (LogBatcher.flush fErr { b with doneClosed := true })
  else Except.ok (LogBatcher.flush fErr b)

/-- A sequence of `Add` calls, returning the final state and each call's
returned error in call order. -/
def addSeq {α : Type} (fErr : List α → Option String) :
    LogBatcher α → List α → LogBatcher α × List (Option String)
  | b, [] => (b, [])
  | b, e :: es =>
    let r := LogBatcher.Add fErr b e
    let rest := addSeq fErr r.1 es
    (rest.1, r.2 :: rest.2)

/-- An `Add` strictly below the threshold only appends. -/
theorem Add_below {α : Type} (fErr : List α → Option String) (b : LogBatcher α)
    (e : α) (h : ¬ b.maxSize ≤ b.entries.length + 1) :
    LogBatcher.Add fErr b e = ({ b with entries := b.entries ++ [e] }, none) := by
  simp [LogBatcher.Add, h]

/-- An `Add` that reaches the threshold appends, flushes the whole buffer
and returns the callback's error. -/
theorem Add_hit {α : Type} (fErr : List α → Option String) (b : LogBatcher α)
    (e : α) (h : b.maxSize ≤ b.entries.length + 1) :
    LogBatcher.Add fErr b e
      = ({ b with entries := [], flushes := b.flushes ++ [b.entries ++ [e]] },
         fErr (b.entries ++ [e])) := by
  simp [LogBatcher.Add, LogBatcher.flush, h]

/-- Adding records that together exactly fill the buffer up to `maxSize`
flushes once, with the whole accumulated batch, on the last call. -/
theorem addSeq_fill {α : Type} (fErr : List α → Option String) :
    ∀ (recs : List α) (b : LogBatcher α),
      recs ≠ [] →
      b.entries.length + recs.length = b.maxSize →
      addSeq fErr b recs
        = ({ b with entries := [], flushes := b.flushes ++ [b.entries ++ recs] },
           List.replicate (recs.length - 1) none ++ [fErr (b.entries ++ recs)]) := by
  intro recs
  induction recs with
  | nil => intro b hne _; exact absurd rfl hne
  | cons e es ih =>
    intro b _ hlen
    cases es with
    | nil =>
      have hfull : b.maxSize ≤ b.entries.length + 1 := by
        simp at hlen
        omega
      simp [addSeq, Add_hit fErr b e hfull]
    | cons e2 es2 =>
      have hroom : ¬ b.maxSize ≤ b.entries.length + 1 := by
        simp at hlen
        omega
      have hih := ih { b with entries := b.entries ++ [e] } (by simp)
        (by simp at hlen ⊢; omega)
      have hstep : addSeq fErr b (e :: e2 :: es2)
          = ((addSeq fErr (LogBatcher.Add fErr b e).1 (e2 :: es2)).1,
             (LogBatcher.Add fErr b e).2
               :: (addSeq fErr (LogBatcher.Add fErr b e).1 (e2 :: es2)).2) := rfl
      rw [hstep, Add_below fErr b e hroom]
      simp only [hih]
      simp [List.replicate_succ]

/-- Claim C4: for every `maxSize ≥ 1` and every sequence of exactly
`maxSize` `Add` calls on a freshly constructed batcher with no
intervening flush or timer tick, the flush callback has been invoked
exactly once, with exactly those records in call order; the threshold
`Add` performs the flush and returns its error while every earlier `Add`
returned no error, and the buffer is empty afterwards. -/
theorem C4_batch_threshold (α : Type) (fErr : List α → Option String) (t : Bool)
    (n : Nat) (recs : List α) (h1 : 1 ≤ n) (h2 : recs.length = n) :
    addSeq fErr (NewLogBatcher α n t) recs
      = ({ entries := [], maxSize := n, hasTicker := t, doneClosed := false,
           flushes := [recs] },
         List.replicate (n - 1) none ++ [fErr recs]) := by
  have hne : recs ≠ [] := by
    intro h
    subst h
    simp at h2
    omega
  have := addSeq_fill fErr recs (NewLogBatcher α n t) hne (by simp [NewLogBatcher, h2])
  simpa [NewLogBatcher, h2] using this

/-- The flush-callback oracle used by the batcher witnesses: it fails on
the batches those witnesses flush. -/
def fErrW : List Nat → Option String := fun l =>
  if l = [7] then some "boom"
  else if l = [7, 8] then some "boom2"
  else none

/-- Concrete instance of claim C4: two `Add` calls with `maxSize = 2`
flush once with both records; the first call returns no error and the
second returns the callback's error. -/
theorem C4_witness :
    addSeq fErrW (NewLogBatcher Nat 2 false) [7, 8]
      = ({ entries := [], maxSize := 2, hasTicker := false, doneClosed := false,
           flushes := [[7, 8]] },
         [none, some "boom2"]) :=
  C4_batch_threshold Nat fErrW false 2 [7, 8] (by decide) (by decide)

/-- Claim C6: a flush of a non-empty buffer hands the entire buffer to
the callback exactly once (never retried) and returns the callback's
error to the immediate caller; the buffer is reset to empty before the
callback runs, so the failed batch is never re-queued; the threshold
`Add` and `Close` surface the same callback error to their callers. -/
theorem C6_flush_error_semantics (α : Type) (fErr : List α → Option String)
    (b : LogBatcher α) (h : b.entries ≠ []) (hd : b.doneClosed = false) :
    (LogBatcher.flush fErr b).2 = fErr b.entries
    ∧ (LogBatcher.flush fErr b).1.entries = []
    ∧ (LogBatcher.flush fErr b).1.flushes = b.flushes ++ [b.entries]
    ∧ (∀ e, b.maxSize ≤ b.entries.length + 1 →
        (LogBatcher.Add fErr b e).2 = fErr (b.entries ++ [e]))
    ∧ (∃ b₂, LogBatcher.Close fErr b = Except.ok (b₂, fErr b.entries)
        ∧ b₂.entries = [] ∧ b₂.flushes = b.flushes ++ [b.entries]) := by
  have hlz : ¬ b.entries.length = 0 := by
    intro hzero
    exact h (List.length_eq_zero.mp hzero)
  refine ⟨?_, ?_, ?_, ?_, ?_⟩
  · simp [LogBatcher.flush, hlz]
  · simp [LogBatcher.flush, hlz]
  · simp [LogBatcher.flush, hlz]
  · intro e hfull
    rw [Add_hit fErr b e hfull]
  · cases ht : b.hasTicker with
    | false =>
      refine ⟨(LogBatcher.flush fErr b).1, ?_⟩
      simp [LogBatcher.Close, ht, LogBatcher.flush, hlz]
    | true =>
      refine ⟨(LogBatcher.flush fErr { b with doneClosed := true }).1, ?_⟩
      simp [LogBatcher.Close, ht, hd, LogBatcher.flush, hlz]

/-- Concrete instance of claim C6: flushing a one-record buffer returns
the callback's error and leaves the buffer empty. -/
theorem C6_witness :
    (LogBatcher.flush fErrW
      { entries := [7], maxSize := 10, hasTicker := false, doneClosed := false,
        flushes := [] }).2 = some "boom"
    ∧ (LogBatcher.flush fErrW
      { entries := [7], maxSize := 10, hasTicker := false, doneClosed := false,
        flushes := [] }).1.entries = [] :=
  ⟨(C6_flush_error_semantics Nat fErrW
      { entries := [7], maxSize := 10, hasTicker := false, doneClosed := false,
        flushes := [] } (by decide) rfl).1,
   (C6_flush_error_semantics Nat fErrW
      { entries := [7], maxSize := 10, hasTicker := false, doneClosed := false,
        flushes := [] } (by decide) rfl).2.1⟩

/-- Claim C10: on a batcher whose construction created a ticker
(`flushInterval > 0`) and whose `done` channel is still open, the first
`Close` succeeds — closing the channel and performing a final flush whose
error it returns — while a second `Close` on the resulting state panics
by closing the already-closed `done` channel. -/
theorem C10_close_not_idempotent (α : Type) (fErr fErr2 : List α → Option String)
    (b : LogBatcher α) (ht : b.hasTicker = true) (hd : b.doneClosed = false) :
    ∃ b₁ r₁, LogBatcher.Close fErr b = Except.ok (b₁, r₁)
      ∧ r₁ = (LogBatcher.flush fErr { b with doneClosed := true }).2
      ∧ LogBatcher.Close fErr2 b₁ = Except.error "close of closed channel" := by
  refine ⟨(LogBatcher.flush fErr { b with doneClosed := true }).1,
    (LogBatcher.flush fErr { b with doneClosed := true }).2, ?_, rfl, ?_⟩
  · simp [LogBatcher.Close, ht, hd]
  · have h1 : (LogBatcher.flush fErr { b with doneClosed := true }).1.hasTicker = true := by
      simp only [LogBatcher.flush]
      by_cases he : ({ b with doneClosed := true } : LogBatcher α).entries.length = 0
      · simp [he, ht]
      · simp [he, ht]
    have h2 : (LogBatcher.flush fErr { b with doneClosed := true }).1.doneClosed = true := by
      simp only [LogBatcher.flush]
      by_cases he : ({ b with doneClosed := true } : LogBatcher α).entries.length = 0
      · simp [he]
      · simp [he]
    simp [LogBatcher.Close, h1, h2]

/-- Concrete instance of claim C10: a fresh batcher with a ticker closes
once, then panics on the second `Close`. -/
theorem C10_witness :
    ∃ b₁ r₁, LogBatcher.Close fErrW (NewLogBatcher Nat 5 true) = Except.ok (b₁, r₁)
      ∧ r₁ = (LogBatcher.flush fErrW
          { NewLogBatcher Nat 5 true with doneClosed := true }).2
      ∧ LogBatcher.Close fErrW b₁ = Except.error "close of closed channel" :=
  C10_close_not_idempotent Nat fErrW fErrW (NewLogBatcher Nat 5 true) rfl rfl

/-- The unsynchronized read of `b.entries` at the start of
`b.entries = append(b.entries, entry)` in `LogBatcher.Add` (batcher
source, line 208): `LogBatcher` has no mutex, so nothing orders this read
with respect to writes by other goroutines. -/
def addReadEntries {α : Type} (b : LogBatcher α) : List α := b.entries

/-- The write-back completing `b.entries = append(b.entries, entry)` with
a snapshot a goroutine read earlier. -/
def addWriteEntries {α : Type} (b : LogBatcher α) (snapshot : List α) (e : α) :
    LogBatcher α :=
  { b with entries := snapshot ++ [e] }

/-- Claim C9 concerns the missing mutual exclusion: `LogBatcher` has no
lock, so Go's memory model admits the interleaving in which two
goroutines inside `Add` both read `b.entries` before either writes; the
second write-back then discards the first goroutine's record entirely —
a lost update that a single mutual-exclusion discipline would exclude.
(The repository's own concurrency test is skipped with the note that
`LogBatcher` needs to be made thread-safe.) -/
theorem C9_race :
    (addWriteEntries
        (addWriteEntries (NewLogBatcher Nat 10 false)
          (addReadEntries (NewLogBatcher Nat 10 false)) 1)
        (addReadEntries (NewLogBatcher Nat 10 false)) 2).entries = [2]
    ∧ ¬ (1 ∈ (addWriteEntries
        (addWriteEntries (NewLogBatcher Nat 10 false)
          (addReadEntries (NewLogBatcher Nat 10 false)) 1)
        (addReadEntries (NewLogBatcher Nat 10 false)) 2).entries) := by
  decide

end OtelLogger
